import Mathlib

/-!
Shallow embedding of the argument-binding engine of the `subcmd` Go package
(files `subcmd.go`, `parse.go`, `check.go` and their support files).

Go machine integers are modelled as `Int`/`Nat` with the explicit range
checks that the source performs (`strconv.ParseInt`/`ParseUint` with a
`bitSize` argument).  Dynamically typed Go values (`interface{}`) are an
inductive type `GoVal` tagged with the Go dynamic type.  Fallible Go code
(`(T, error)` returns) becomes `Except String T` or a dedicated error
inductive.  `flag.Value` objects (mutable, user supplied) are modelled by a
heap of object states indexed by `Nat`, instantiated with the concrete
value type `valuetestvalue` from the repository's own `value_test.go`
(state: a list of strings; `Set` splits its argument on commas).
-/

/-- Decidable equality for `Except`, used to evaluate the concrete
scenarios below. -/
instance {e a : Type} [DecidableEq e] [DecidableEq a] : DecidableEq (Except e a) := fun x y =>
  match x, y with
  | .ok v, .ok w =>
    if h : v = w then isTrue (by rw [h]) else isFalse (fun hc => by cases hc; exact h rfl)
  | .error v, .error w =>
    if h : v = w then isTrue (by rw [h]) else isFalse (fun hc => by cases hc; exact h rfl)
  | .ok _, .error _ => isFalse (fun hc => by cases hc)
  | .error _, .ok _ => isFalse (fun hc => by cases hc)

namespace Subcmd

/-- The `Type` enumeration of `subcmd.go` (named `PType` here because `Type`
is reserved in Lean): the closed set of parameter kinds, including the
`Value` kind handled by the current `parse.go`. -/
inductive PType where
  | bool
  | int
  | int64
  | uint
  | uint64
  | string
  | float64
  | duration
  | value
  deriving DecidableEq, Repr

/-- A dynamically typed Go value (`interface{}`), tagged with its dynamic
type, as used for `Param.Default`.  Floats are carried as an exact decimal
mantissa/exponent pair (no theorem in this file depends on float
rounding); a `flag.Value` object is a reference (`Nat`) into the value
heap; `duration` is a count of nanoseconds. -/
inductive GoVal where
  | vBool (b : Bool)
  | vInt (n : Int)
  | vInt8 (n : Int)
  | vInt16 (n : Int)
  | vInt32 (n : Int)
  | vInt64 (n : Int)
  | vUint (n : Nat)
  | vUint8 (n : Nat)
  | vUint16 (n : Nat)
  | vUint32 (n : Nat)
  | vUint64 (n : Nat)
  | vString (s : String)
  | vFloat32 (m : Int) (e : Int)
  | vFloat64 (m : Int) (e : Int)
  | vDuration (ns : Int)
  | vValue (ref : Nat)
  | vNil
  deriving DecidableEq, Repr

/-- `subcmd.Param`: one declared parameter (name, kind, dynamically typed
default, doc string). -/
structure Param where
  name : String
  type : PType
  dflt : GoVal
  doc : String
  deriving DecidableEq, Repr

/-- `asInt` from `parse.go`: coerce a dynamically typed default to Go `int`.
Accepted dynamic types: int, int8, int16, int32, uint8, uint16. -/
def asInt : GoVal → Except String Int
  | .vInt v => .ok v
  | .vInt8 v => .ok v
  | .vInt16 v => .ok v
  | .vInt32 v => .ok v
  | .vUint8 v => .ok (v : Int)
  | .vUint16 v => .ok (v : Int)
  | v => .error s!"cannot convert {repr v} to int"

/-- `asInt64` from `parse.go`: accepted dynamic types: int, int64, int8,
int16, int32, uint8, uint16, uint32. -/
def asInt64 : GoVal → Except String Int
  | .vInt v => .ok v
  | .vInt64 v => .ok v
  | .vInt8 v => .ok v
  | .vInt16 v => .ok v
  | .vInt32 v => .ok v
  | .vUint8 v => .ok (v : Int)
  | .vUint16 v => .ok (v : Int)
  | .vUint32 v => .ok (v : Int)
  | v => .error s!"cannot convert {repr v} to int64"

/-- `asUint` from `parse.go`: signed sources int, int8, int16, int32 are
accepted only when non-negative; unsigned sources uint, uint8, uint16,
uint32 always.  There is no case for int64 or uint64: those dynamic types
fail.  A fall-through of a negative signed case reaches the final error
return, exactly as in the Go `switch`. -/
def asUint : GoVal → Except String Nat
  | .vInt v => if v ≥ 0 then .ok v.toNat else .error s!"cannot convert {repr (GoVal.vInt v)} to uint"
  | .vUint v => .ok v
  | .vInt8 v => if v ≥ 0 then .ok v.toNat else .error s!"cannot convert {repr (GoVal.vInt8 v)} to uint"
  | .vInt16 v => if v ≥ 0 then .ok v.toNat else .error s!"cannot convert {repr (GoVal.vInt16 v)} to uint"
  | .vInt32 v => if v ≥ 0 then .ok v.toNat else .error s!"cannot convert {repr (GoVal.vInt32 v)} to uint"
  | .vUint8 v => .ok v
  | .vUint16 v => .ok v
  | .vUint32 v => .ok v
  | v => .error s!"cannot convert {repr v} to uint"

/-- `asUint64` from `parse.go`: signed sources int, int8, int16, int32,
int64 accepted only when non-negative; unsigned sources uint, uint64,
uint8, uint16, uint32 always. -/
def asUint64 : GoVal → Except String Nat
  | .vInt v => if v ≥ 0 then .ok v.toNat else .error s!"cannot convert {repr (GoVal.vInt v)} to uint64"
  | .vUint v => .ok v
  | .vUint64 v => .ok v
  | .vInt8 v => if v ≥ 0 then .ok v.toNat else .error s!"cannot convert {repr (GoVal.vInt8 v)} to uint64"
  | .vInt16 v => if v ≥ 0 then .ok v.toNat else .error s!"cannot convert {repr (GoVal.vInt16 v)} to uint64"
  | .vInt32 v => if v ≥ 0 then .ok v.toNat else .error s!"cannot convert {repr (GoVal.vInt32 v)} to uint64"
  | .vInt64 v => if v ≥ 0 then .ok v.toNat else .error s!"cannot convert {repr (GoVal.vInt64 v)} to uint64"
  | .vUint8 v => .ok v
  | .vUint16 v => .ok v
  | .vUint32 v => .ok v
  | v => .error s!"cannot convert {repr v} to uint64"

/-- `asFloat64` from `parse.go`: any numeric dynamic type converts to
float64 (modelled exactly as a decimal pair, integers as (n, 0)). -/
def asFloat64 : GoVal → Except String (Int × Int)
  | .vInt v => .ok (v, 0)
  | .vUint v => .ok ((v : Int), 0)
  | .vInt8 v => .ok (v, 0)
  | .vInt16 v => .ok (v, 0)
  | .vInt32 v => .ok (v, 0)
  | .vInt64 v => .ok (v, 0)
  | .vUint8 v => .ok ((v : Int), 0)
  | .vUint16 v => .ok ((v : Int), 0)
  | .vUint32 v => .ok ((v : Int), 0)
  | .vUint64 v => .ok ((v : Int), 0)
  | .vFloat32 m e => .ok (m, e)
  | .vFloat64 m e => .ok (m, e)
  | v => .error s!"cannot convert {repr v} to float64"

/-- `asDuration` from `parse.go`: a native duration passes through,
otherwise any `asInt64`-coercible value is a raw nanosecond count. -/
def asDuration (val : GoVal) : Except String Int :=
  match val with
  | .vDuration v => .ok v
  | _ =>
    match asInt64 val with
    | .ok v => .ok v
    | .error _ => .error s!"cannot convert {repr val} to time.Duration"

/-! ### Models of the Go standard library parsing functions

These model external standard-library code (`strconv`, `time`), not code of
this repository.  They are faithful for the decimal forms exercised by the
theorems below. -/

/-- Decimal digit list to number; `none` on an empty list or a non-digit. -/
def digitsToNat : List Char → Option Nat
  | [] => none
  | cs => cs.foldl (fun acc c =>
      match acc with
      | none => none
      | some n => if c.isDigit then some (n * 10 + (c.toNat - 48)) else none)
      (some 0)

/-- The unbounded numeric reading of an unsigned decimal token (the digit
string's value, independent of any bit width); `none` when the token is
not a plain digit string. -/
def tokenUintVal (s : String) : Option Nat :=
  digitsToNat s.data

/-- The unbounded numeric reading of a signed decimal token: an optional
leading sign followed by digits; `none` when malformed. -/
def tokenIntVal (s : String) : Option Int :=
  let (neg, digits) :=
    match s.data with
    | '-' :: rest => (true, rest)
    | '+' :: rest => (false, rest)
    | cs => (false, cs)
  (digitsToNat digits).map (fun n => if neg then -(n : Int) else (n : Int))

/-- Model of Go `strconv.ParseUint(s, 10, bitSize)`: digits only (no sign
allowed), value must be below `2^bitSize`.  Range overflow is an error,
never a truncated success. -/
def strconvParseUint (s : String) (bitSize : Nat) : Except String Nat :=
  match tokenUintVal s with
  | none => .error s!"invalid syntax: {s}"
  | some n => if n < 2 ^ bitSize then .ok n else .error s!"value out of range: {s}"

/-- Model of Go `strconv.ParseInt(s, 10, bitSize)`: an optional leading
sign followed by digits; the value must lie in
`[-2^(bitSize-1), 2^(bitSize-1))`.  Range overflow is an error, never a
truncated success. -/
def strconvParseInt (s : String) (bitSize : Nat) : Except String Int :=
  match tokenIntVal s with
  | none => .error s!"invalid syntax: {s}"
  | some v =>
    if -(2 ^ (bitSize - 1) : Int) ≤ v ∧ v < (2 ^ (bitSize - 1) : Int) then .ok v
    else .error s!"value out of range: {s}"

/-- Model of Go `strconv.ParseBool`: the exact accepted token set. -/
def strconvParseBool (s : String) : Except String Bool :=
  if s = "1" ∨ s = "t" ∨ s = "T" ∨ s = "true" ∨ s = "TRUE" ∨ s = "True" then .ok true
  else if s = "0" ∨ s = "f" ∨ s = "F" ∨ s = "false" ∨ s = "FALSE" ∨ s = "False" then .ok false
  else .error s!"invalid syntax: {s}"

/-- Model of Go `strconv.ParseFloat(s, 64)`, simplified to the exact decimal
forms `[sign] digits [. digits] [e [sign] digits]`, producing an exact
mantissa/decimal-exponent pair instead of a rounded IEEE double.  No
theorem in this file depends on float semantics. -/
def strconvParseFloat (s : String) : Except String (Int × Int) :=
  let (neg, cs) :=
    match s.data with
    | '-' :: rest => (true, rest)
    | '+' :: rest => (false, rest)
    | cs => (false, cs)
  let intPart := cs.takeWhile Char.isDigit
  let cs := cs.dropWhile Char.isDigit
  let (fracPart, cs) :=
    match cs with
    | '.' :: rest => (rest.takeWhile Char.isDigit, rest.dropWhile Char.isDigit)
    | _ => ([], cs)
  let (expOk, expVal, cs) :=
    match cs with
    | 'e' :: rest | 'E' :: rest =>
      let (eneg, rest) :=
        match rest with
        | '-' :: r => (true, r)
        | '+' :: r => (false, r)
        | r => (false, r)
      let eds := rest.takeWhile Char.isDigit
      let rest := rest.dropWhile Char.isDigit
      match digitsToNat eds with
      | some e => (true, if eneg then -(e : Int) else (e : Int), rest)
      | none => (false, 0, rest)
    | _ => (true, 0, cs)
  if intPart.isEmpty ∧ fracPart.isEmpty then .error s!"invalid syntax: {s}"
  else if ¬ expOk ∨ ¬ cs.isEmpty then .error s!"invalid syntax: {s}"
  else
    let mAbs := (digitsToNat (intPart ++ fracPart)).getD ((digitsToNat intPart).getD 0)
    let m : Int := if neg then -(mAbs : Int) else (mAbs : Int)
    .ok (m, expVal - (fracPart.length : Int))

/-- Nanosecond multiplier of a Go duration unit suffix (`time.ParseDuration`'s
unit map), matched greedily at the head of the remaining characters. -/
def durUnit : List Char → Option (Nat × List Char)
  | 'n' :: 's' :: rest => some (1, rest)
  | 'u' :: 's' :: rest => some (1000, rest)
  | 'µ' :: 's' :: rest => some (1000, rest)
  | 'μ' :: 's' :: rest => some (1000, rest)
  | 'm' :: 's' :: rest => some (1000000, rest)
  | 's' :: rest => some (1000000000, rest)
  | 'm' :: rest => some (60000000000, rest)
  | 'h' :: rest => some (3600000000000, rest)
  | _ => none

/-- One `number [. fraction] unit` element of a duration, yielding its
nanosecond count (fractions by exact scaling with floor division, a
simplification of Go's accumulation). -/
def durElem (cs : List Char) : Option (Nat × List Char) :=
  let intDigits := cs.takeWhile Char.isDigit
  let cs1 := cs.dropWhile Char.isDigit
  let (fracDigits, cs2) :=
    match cs1 with
    | '.' :: rest => (rest.takeWhile Char.isDigit, rest.dropWhile Char.isDigit)
    | _ => ([], cs1)
  if intDigits.isEmpty ∧ fracDigits.isEmpty then none
  else
    match durUnit cs2 with
    | none => none
    | some (mult, cs3) =>
      let whole := (digitsToNat intDigits).getD 0
      let frac := (digitsToNat fracDigits).getD 0
      some (whole * mult + frac * mult / 10 ^ fracDigits.length, cs3)

/-- Iterate duration elements; the fuel is an upper bound on the number of
elements (each consumes at least one character). -/
def durLoop : Nat → List Char → Option Nat
  | _, [] => some 0
  | 0, _ => none
  | fuel + 1, cs =>
    match durElem cs with
    | none => none
    | some (n, rest) =>
      match durLoop fuel rest with
      | none => none
      | some m => some (n + m)

/-- Model of Go `time.ParseDuration`: optional sign, then one or more
`number[.fraction]unit` elements; `"0"` alone is allowed; an empty or
unit-less string is an error.  No theorem in this file depends on duration
semantics. -/
def timeParseDuration (s : String) : Except String Int :=
  let (neg, cs) :=
    match s.data with
    | '-' :: rest => (true, rest)
    | '+' :: rest => (false, rest)
    | cs => (false, cs)
  if cs = ['0'] then .ok 0
  else if cs.isEmpty then .error s!"invalid duration: {s}"
  else
    match durLoop (cs.length + 1) cs with
    | none => .error s!"invalid duration: {s}"
    | some n => .ok (if neg then -(n : Int) else (n : Int))

/-! ### Character-level models of the `strings` helpers used by the source

(`strings.HasPrefix(name, "-")`, `strings.HasSuffix(name, "?")`,
`strings.TrimLeft(name, "-")`, `strings.Split(s, ",")`), written over the
character list so that they evaluate structurally. -/

/-- `strings.HasPrefix(s, "-")`. -/
def hasDashPrefix (s : String) : Bool :=
  match s.data with
  | '-' :: _ => true
  | _ => false

/-- `strings.HasSuffix(s, "?")`. -/
def hasQmarkSuffix (s : String) : Bool :=
  s.data.getLast? = some '?'

/-- `strings.TrimLeft(s, "-")`. -/
def trimDashes (s : String) : String :=
  String.mk (s.data.dropWhile (fun c => c = '-'))

def splitCommaAux : List Char → List Char → List String
  | acc, [] => [String.mk acc.reverse]
  | acc, ',' :: rest => String.mk acc.reverse :: splitCommaAux [] rest
  | acc, c :: rest => splitCommaAux (c :: acc) rest

/-- `strings.Split(s, ",")`. -/
def splitComma (s : String) : List String :=
  splitCommaAux [] s.data

/-! ### The mutable `flag.Value` object heap

The current `parse.go` delegates `Value`-kind parameters to a user-supplied
`flag.Value` object whose `Set` method mutates the object in place.  The
heap maps an object reference to the object's state.  The state type and
`Set` behavior instantiate the concrete value type `valuetestvalue` of the
repository's `value_test.go` (state: `result []string`; `Set` splits the
token on commas), which is the value type the repository itself uses to
test this code path. -/

def Heap := Nat → List String

def heapGet (h : Heap) (r : Nat) : List String := h r

def heapSet (h : Heap) (r : Nat) (v : List String) : Heap :=
  fun i => if i = r then v else h i

/-- `valuetestvalue.Set` from `value_test.go`: `v.result = strings.Split(s, ",")`,
applied to the object behind reference `r`. -/
def vtvSet (h : Heap) (r : Nat) (s : String) : Heap :=
  heapSet h r (splitComma s)

/-! ### `ToFlagSet` (parse.go) -/

/-- One registered flag of the `flag.FlagSet` built by `ToFlagSet`, together
with its typed value holder (the pointer Go returns from `fs.Bool`,
`fs.Int`, ...; for a `Value`-kind flag the holder is the `flag.Value`
object itself, registered with `fs.Var` without cloning). -/
structure FlagSpec where
  name : String
  ty : PType
  val : GoVal
  deriving DecidableEq, Repr

/-- The per-flag `switch p.Type` of `ToFlagSet`: coerce the declared default
into the flag's canonical storage.  `Bool` ignores a mistyped default
(`dflt, _ := p.Default.(bool)`); the numeric kinds propagate the `as*`
coercion error; `String` and `Value` fail on a mistyped default. -/
def flagDefault (p : Param) : Except String GoVal :=
  match p.type with
  | .bool => .ok (.vBool (match p.dflt with | .vBool b => b | _ => false))
  | .int => (asInt p.dflt).map .vInt
  | .int64 => (asInt64 p.dflt).map .vInt64
  | .uint => (asUint p.dflt).map .vUint
  | .uint64 => (asUint64 p.dflt).map .vUint64
  | .string =>
    match p.dflt with
    | .vString s => .ok (.vString s)
    | _ => .error s!"param {p.name} has type String but default value has a different type"
  | .float64 => (asFloat64 p.dflt).map (fun me => .vFloat64 me.1 me.2)
  | .duration => (asDuration p.dflt).map .vDuration
  | .value =>
    match p.dflt with
    | .vValue r => .ok (.vValue r)
    | _ => .error s!"param {p.name} has type Value but default value has a different type"

/-- `ToFlagSet` from the current `parse.go`: every parameter whose name has
no leading `-` is appended to `positional` (the loop `continue`s);
every parameter whose name begins with `-` registers a flag under its name
with all leading dashes trimmed (`strings.TrimLeft(p.Name, "-")`) and
appends its value holder, in declared order.  The first coercion failure
aborts with that error. -/
def ToFlagSet : List Param → Except String (List FlagSpec × List Param)
  | [] => .ok ([], [])
  | p :: rest =>
    if ¬ hasDashPrefix p.name then
      match ToFlagSet rest with
      | .error e => .error e
      | .ok (fs, pos) => .ok (fs, p :: pos)
    else
      match flagDefault p with
      | .error e => .error e
      | .ok v =>
        match ToFlagSet rest with
        | .error e => .error e
        | .ok (fs, pos) =>
          .ok ({ name := trimDashes p.name, ty := p.type, val := v } :: fs, pos)

/-! ### Model of `flag.FlagSet.Parse` (Go standard library)

`parseArgs` calls `fs.Parse(args)` on the `FlagSet` built by `ToFlagSet`
(`flag.ContinueOnError`), then reads the unconsumed tokens with
`fs.Args()`.  This models the standard library's `parseOne` loop: stop at
the first token that is not flag-shaped (`len < 2` or no leading `-`),
treat `--` as an end-of-flags marker, accept `-name=value`, bare `-name`
for booleans, and `-name value` for the rest.  Numeric flag values are
parsed here in base 10 only (Go also accepts hex/octal prefixes); no
theorem in this file depends on a numeric flag value. -/

/-- Split `name[=value]` at the first `=` (the leading character is already
known not to be `=`): returns `(name, value, hasValue)`. -/
def splitEqAux : List Char → Option (List Char × List Char)
  | [] => none
  | '=' :: rest => some ([], rest)
  | c :: rest =>
    match splitEqAux rest with
    | none => none
    | some (a, b) => some (c :: a, b)

def splitEq (s : String) : String × String × Bool :=
  match splitEqAux s.data with
  | none => (s, "", false)
  | some (a, b) => (String.mk a, String.mk b, true)

/-- The `Set` method of the holder registered for a flag: parse `s`
according to the flag's kind and store it (for a `Value`-kind flag,
mutate the referenced object on the heap). -/
def setFlagVal (heap : Heap) (fl : FlagSpec) (s : String) :
    Except String (Heap × FlagSpec) :=
  match fl.ty with
  | .bool => (strconvParseBool s).map fun b => (heap, { fl with val := .vBool b })
  | .int => (strconvParseInt s 64).map fun n => (heap, { fl with val := .vInt n })
  | .int64 => (strconvParseInt s 64).map fun n => (heap, { fl with val := .vInt64 n })
  | .uint => (strconvParseUint s 64).map fun n => (heap, { fl with val := .vUint n })
  | .uint64 => (strconvParseUint s 64).map fun n => (heap, { fl with val := .vUint64 n })
  | .string => .ok (heap, { fl with val := .vString s })
  | .float64 => (strconvParseFloat s).map fun me => (heap, { fl with val := .vFloat64 me.1 me.2 })
  | .duration => (timeParseDuration s).map fun n => (heap, { fl with val := .vDuration n })
  | .value =>
    match fl.val with
    | .vValue r => .ok (vtvSet heap r s, fl)
    | _ => .error "flag value holder is not a flag.Value"

/-- Replace the stored spec of flag `name` (the `FlagSet`'s single cell per
flag). -/
def replaceFlag (fs : List FlagSpec) (name : String) (fl : FlagSpec) : List FlagSpec :=
  fs.map fun f => if f.name = name then fl else f

/-- The `parseOne` loop of `flag.FlagSet.Parse` with `ContinueOnError`:
returns the updated heap, the flag cells after parsing, and the
unconsumed tokens (`fs.Args()`). -/
def fsParse (heap : Heap) (fs : List FlagSpec) : List String →
    Except String (Heap × List FlagSpec × List String)
  | [] => .ok (heap, fs, [])
  | s :: rest =>
    if s.length < 2 ∨ s.data.head? ≠ some '-' then .ok (heap, fs, s :: rest)
    else
      let numMinuses := if s.data.get? 1 = some '-' then 2 else 1
      if numMinuses = 2 ∧ s.length = 2 then .ok (heap, fs, rest)
      else
        let nameRaw := String.mk (s.data.drop numMinuses)
        if nameRaw = "" ∨ nameRaw.data.head? = some '-' ∨ nameRaw.data.head? = some '=' then
          .error s!"bad flag syntax: {s}"
        else
          let (name, value, hasValue) := splitEq nameRaw
          match fs.find? (fun f => f.name = name) with
          | none =>
            if name = "help" ∨ name = "h" then .error "flag: help requested"
            else .error s!"flag provided but not defined: -{name}"
          | some fl =>
            if fl.ty = .bool then
              if hasValue then
                match setFlagVal heap fl value with
                | .error e => .error s!"invalid boolean value for -{name}: {e}"
                | .ok (heap2, fl2) => fsParse heap2 (replaceFlag fs name fl2) rest
              else
                match setFlagVal heap fl "true" with
                | .error e => .error s!"invalid boolean flag {name}: {e}"
                | .ok (heap2, fl2) => fsParse heap2 (replaceFlag fs name fl2) rest
            else
              if hasValue then
                match setFlagVal heap fl value with
                | .error e => .error s!"invalid value for -{name}: {e}"
                | .ok (heap2, fl2) => fsParse heap2 (replaceFlag fs name fl2) rest
              else
                match rest with
                | [] => .error s!"flag needs an argument: -{name}"
                | v :: rest2 =>
                  match setFlagVal heap fl v with
                  | .error e => .error s!"invalid value for -{name}: {e}"
                  | .ok (heap2, fl2) => fsParse heap2 (replaceFlag fs name fl2) rest2

/-! ### Positional binding (`parse.go`, current revision) -/

/-- The error classes `parseArgs` produces: a `ToFlagSet` configuration
error (returned unchanged), a flag-parse error (wrapped "parsing args"),
the sentinel `ErrTooFewArgs`, and `ParseErr` wrapping an underlying
conversion failure. -/
inductive RErr where
  | configErr (msg : String)
  | flagParseErr (msg : String)
  | tooFewArgs
  | parseErr (msg : String)
  deriving DecidableEq, Repr

/-- One element of the argument vector handed to the handler: the leading
context, a typed value (`reflect.ValueOf`), or the trailing token list. -/
inductive ArgVal where
  | ctx
  | val (v : GoVal)
  | strList (xs : List String)
  deriving DecidableEq, Repr

/-- `parseBoolPos`: the default must be a genuine `bool`
(`val, ok := p.Default.(bool)`); with a token present, `strconv.ParseBool`
replaces it and the token is consumed. -/
def parseBoolPos (args : List String) (p : Param) : Except RErr (GoVal × List String) :=
  match p.dflt with
  | .vBool b =>
    match args with
    | [] => .ok (.vBool b, [])
    | a :: rest =>
      match strconvParseBool a with
      | .error e => .error (.parseErr e)
      | .ok v => .ok (.vBool v, rest)
  | _ => .error (.parseErr s!"param {p.name} has type Bool but default value has a different type")

/-- `parseIntPos`: default via `asInt`; a token is parsed with
`strconv.ParseInt(arg, 10, 32)` (32-bit range check) and stored as a
machine-width `int`. -/
def parseIntPos (args : List String) (p : Param) : Except RErr (GoVal × List String) :=
  match asInt p.dflt with
  | .error e => .error (.parseErr e)
  | .ok d =>
    match args with
    | [] => .ok (.vInt d, [])
    | a :: rest =>
      match strconvParseInt a 32 with
      | .error e => .error (.parseErr e)
      | .ok v => .ok (.vInt v, rest)

/-- `parseInt64Pos`: default via `asInt64`; token via
`strconv.ParseInt(arg, 10, 64)`. -/
def parseInt64Pos (args : List String) (p : Param) : Except RErr (GoVal × List String) :=
  match asInt64 p.dflt with
  | .error e => .error (.parseErr e)
  | .ok d =>
    match args with
    | [] => .ok (.vInt64 d, [])
    | a :: rest =>
      match strconvParseInt a 64 with
      | .error e => .error (.parseErr e)
      | .ok v => .ok (.vInt64 v, rest)

/-- `parseUintPos`: default via `asUint`; a token is parsed with
`strconv.ParseUint(arg, 10, 32)` (32-bit range check) and stored as a
machine-width `uint`. -/
def parseUintPos (args : List String) (p : Param) : Except RErr (GoVal × List String) :=
  match asUint p.dflt with
  | .error e => .error (.parseErr e)
  | .ok d =>
    match args with
    | [] => .ok (.vUint d, [])
    | a :: rest =>
      match strconvParseUint a 32 with
      | .error e => .error (.parseErr e)
      | .ok v => .ok (.vUint v, rest)

/-- `parseUint64Pos`: default via `asUint64`; token via
`strconv.ParseUint(arg, 10, 64)`. -/
def parseUint64Pos (args : List String) (p : Param) : Except RErr (GoVal × List String) :=
  match asUint64 p.dflt with
  | .error e => .error (.parseErr e)
  | .ok d =>
    match args with
    | [] => .ok (.vUint64 d, [])
    | a :: rest =>
      match strconvParseUint a 64 with
      | .error e => .error (.parseErr e)
      | .ok v => .ok (.vUint64 v, rest)

/-- `parseStringPos`: the default must be a genuine `string`; a token is
taken verbatim. -/
def parseStringPos (args : List String) (p : Param) : Except RErr (GoVal × List String) :=
  match p.dflt with
  | .vString s =>
    match args with
    | [] => .ok (.vString s, [])
    | a :: rest => .ok (.vString a, rest)
  | _ => .error (.parseErr s!"param {p.name} has type String but default value has a different type")

/-- `parseFloat64Pos`: default via `asFloat64`; token via
`strconv.ParseFloat(arg, 64)`. -/
def parseFloat64Pos (args : List String) (p : Param) : Except RErr (GoVal × List String) :=
  match asFloat64 p.dflt with
  | .error e => .error (.parseErr e)
  | .ok d =>
    match args with
    | [] => .ok (.vFloat64 d.1 d.2, [])
    | a :: rest =>
      match strconvParseFloat a with
      | .error e => .error (.parseErr e)
      | .ok v => .ok (.vFloat64 v.1 v.2, rest)

/-- `parseDurationPos`: default via `asDuration`; token via
`time.ParseDuration`. -/
def parseDurationPos (args : List String) (p : Param) : Except RErr (GoVal × List String) :=
  match asDuration p.dflt with
  | .error e => .error (.parseErr e)
  | .ok d =>
    match args with
    | [] => .ok (.vDuration d, [])
    | a :: rest =>
      match timeParseDuration a with
      | .error e => .error (.parseErr e)
      | .ok v => .ok (.vDuration v, rest)

/-- `parseValuePos`: the default must be a `flag.Value`
(`val, ok := p.Default.(flag.Value)`).  With a token present, `val.Set`
is called directly on the default object — no clone is made — mutating it
on the heap; with no token the default object itself is appended.  (The
instantiated `Set`, `valuetestvalue.Set`, always succeeds.) -/
def parseValuePos (heap : Heap) (args : List String) (p : Param) :
    Except RErr (Heap × GoVal × List String) :=
  match p.dflt with
  | .vValue r =>
    match args with
    | [] => .ok (heap, .vValue r, [])
    | a :: rest => .ok (vtvSet heap r a, .vValue r, rest)
  | _ => .error (.parseErr s!"param {p.name} is not a flag.Value")

/-- `parsePositionalArg`: with no tokens left and a name lacking the `?`
suffix, fail with `ErrTooFewArgs`; otherwise dispatch on the kind. -/
def parsePositionalArg (heap : Heap) (p : Param) (args : List String) :
    Except RErr (Heap × GoVal × List String) :=
  if args = [] ∧ ¬ hasQmarkSuffix p.name then .error .tooFewArgs
  else
    match p.type with
    | .bool => (parseBoolPos args p).map fun (v, rest) => (heap, v, rest)
    | .int => (parseIntPos args p).map fun (v, rest) => (heap, v, rest)
    | .int64 => (parseInt64Pos args p).map fun (v, rest) => (heap, v, rest)
    | .uint => (parseUintPos args p).map fun (v, rest) => (heap, v, rest)
    | .uint64 => (parseUint64Pos args p).map fun (v, rest) => (heap, v, rest)
    | .string => (parseStringPos args p).map fun (v, rest) => (heap, v, rest)
    | .float64 => (parseFloat64Pos args p).map fun (v, rest) => (heap, v, rest)
    | .duration => (parseDurationPos args p).map fun (v, rest) => (heap, v, rest)
    | .value => parseValuePos heap args p

/-- The `for _, p := range positional` loop of `parseArgs`: bind each
positional in declared order, appending its value; the first error
aborts the whole loop immediately. -/
def bindPositionals (heap : Heap) (ps : List Param) (args : List String)
    (acc : List ArgVal) : Except RErr (Heap × List ArgVal × List String) :=
  match ps with
  | [] => .ok (heap, acc, args)
  | p :: rest =>
    match parsePositionalArg heap p args with
    | .error e => .error e
    | .ok (heap, v, args) => bindPositionals heap rest args (acc ++ [ArgVal.val v])

/-- The flag-holder element appended for each flag after `fs.Parse`: the
dereferenced typed value (`ptr.Elem()`), or for a `Value`-kind flag the
`flag.Value` object itself (`ptr.Type().Implements(valueType)`).  Both
are the flag cell's current content. -/
def flagArgVal (fl : FlagSpec) : ArgVal := .val fl.val

/-- `parseArgs` (current `parse.go`): build the flag set, run `fs.Parse`,
then assemble `[ctx, flag values..., positional values..., tail]` where
the tail is one `[]string` argument, or the leftover tokens spread as
individual string arguments when `variadic` holds. -/
def parseArgs (heap : Heap) (params : List Param) (args : List String)
    (variadic : Bool) : Except RErr (Heap × List ArgVal) :=
  match ToFlagSet params with
  | .error e => .error (.configErr e)
  | .ok (fs, positional) =>
    match fsParse heap fs args with
    | .error e => .error (.flagParseErr e)
    | .ok (heap, fs, args) =>
      let argvals := ArgVal.ctx :: fs.map flagArgVal
      match bindPositionals heap positional args argvals with
      | .error e => .error e
      | .ok (heap, argvals, args) =>
        if variadic then .ok (heap, argvals ++ args.map (fun a => ArgVal.val (.vString a)))
        else .ok (heap, argvals ++ [ArgVal.strList args])

/-! ### Static Go types and the signature checker (`check.go`) -/

/-- The static Go types that appear in handler signatures, as compared by
`reflect` in `check.go` and `subcmd.go`.  `ctxConcrete` is the concrete
type of `context.Background()`; `ctxIface` is the `context.Context`
interface; `valueConcrete` is the concrete type of the instantiated
`flag.Value` object; `valueIface` the `flag.Value` interface;
`any` is `interface{}`; `other` covers every remaining static type. -/
inductive GoTy where
  | bool
  | int
  | int64
  | uint
  | uint64
  | string
  | float64
  | duration
  | ctxConcrete
  | ctxIface
  | strSlice
  | errorIface
  | valueConcrete
  | valueIface
  | any
  | other (n : Nat)
  deriving DecidableEq, Repr

/-- `reflect`'s `x.AssignableTo(T)` for the types above: identical types,
or `T` an interface the concrete type implements (`interface{}` accepts
everything; `context.Background()`'s type implements `context.Context`;
the instantiated value object implements `flag.Value`). -/
def assignableTo (x t : GoTy) : Bool :=
  x = t ∨ t = .any ∨ (x = .ctxConcrete ∧ t = .ctxIface) ∨ (x = .valueConcrete ∧ t = .valueIface)

/-- Whether a static return type implements the `error` interface
(`ft.Out(0).Implements(errType)`). -/
def implementsError (t : GoTy) : Bool :=
  t = .errorIface

/-- A Go error value: either a base error or `errors.Wrap`/`Wrapf` of an
inner error with a context message. -/
inductive GoErr where
  | base (msg : String)
  | wrapped (msg : String) (inner : GoErr)
  deriving DecidableEq, Repr

/-- The static type of a handler function together with its dynamic
behavior: parameter types, return types, and the call itself
(`fv.Call(argvals)`), which yields the returned error value or `none`
for a nil error / no return value. -/
structure GoFunc where
  inTys : List GoTy
  outTys : List GoTy
  impl : List ArgVal → Option GoErr

/-- The dynamic content of a `Subcmd.F` field: a function or some
non-function value. -/
inductive FVal where
  | func (ft : GoFunc)
  | notFunc

/-- `subcmd.Subcmd`: handler, declared parameters, description. -/
structure Subcmd where
  F : FVal
  params : List Param
  desc : String

/-- The structured content of the errors `Check` produces (`check.go` builds
them with `fmt.Errorf`/`errors.Wrap`; the constructors here carry the data
interpolated into those messages).  `numParams` records the actual and the
expected parameter count ("F has %d parameters, want %d"). -/
inductive CheckErr where
  | notAFunction
  | numParams (got want : Nat)
  | paramType (n : Nat) (msg : String)
  | unknownType
  | notError
  | tooManyReturns
  | wrap (msg : String) (e : CheckErr)
  deriving DecidableEq, Repr

/-- The `want` argument of `checkParam`: a declared kind, or the internal
`contextType` / `stringSliceType` constants. -/
inductive CheckWant where
  | ofP (t : PType)
  | contextType
  | stringSliceType

/-- The canonical concrete type `checkParam` instantiates per kind (the
`var x bool` etc. in its `switch`); `Value` has no case in `check.go`'s
`checkParam` and falls to the `default: unknown type` branch. -/
def canonTy : PType → Option GoTy
  | .bool => some .bool
  | .int => some .int
  | .int64 => some .int64
  | .uint => some .uint
  | .uint64 => some .uint64
  | .string => some .string
  | .float64 => some .float64
  | .duration => some .duration
  | .value => none

/-- `checkParam` from `check.go`: the handler's `n`-th parameter type must
be assignable from the canonical concrete value of `want`. -/
def checkParam (ft : GoFunc) (n : Nat) (want : CheckWant) : Except CheckErr Unit :=
  let paramType := ft.inTys.getD n (.other 0)
  match want with
  | .contextType =>
    if assignableTo .ctxConcrete paramType then .ok ()
    else .error (.paramType n "want context.Context")
  | .stringSliceType =>
    if assignableTo .strSlice paramType then .ok ()
    else .error (.paramType n "want []string")
  | .ofP t =>
    match canonTy t with
    | none => .error .unknownType
    | some x =>
      if assignableTo x paramType then .ok ()
      else .error (.paramType n "kind mismatch")

/-- The `for i, param := range subcmd.Params` loop of `Check`, starting at
handler parameter index `i+1` and wrapping a failure with
"checking parameter %d". -/
def checkParamsLoop (ft : GoFunc) : List Param → Nat → Except CheckErr Unit
  | [], _ => .ok ()
  | p :: rest, i =>
    match checkParam ft i (.ofP p.type) with
    | .error e => .error (.wrap s!"checking parameter {i}" e)
    | .ok _ => checkParamsLoop ft rest (i + 1)

/-- `Check` from `check.go`: `F` must be a function whose parameter count is
`len(Params) + 2`; parameter 0 must accept a context, the last parameter
must accept `[]string`, each middle parameter must match its declared
kind, and the return is nothing or a single error. -/
def Check (s : Subcmd) : Except CheckErr Unit :=
  match s.F with
  | .notFunc => .error .notAFunction
  | .func ft =>
    let numIn := ft.inTys.length
    if numIn ≠ s.params.length + 2 then .error (.numParams numIn (s.params.length + 2))
    else
      match checkParam ft 0 .contextType with
      | .error e => .error (.wrap "checking first parameter is a context.Context" e)
      | .ok _ =>
        match checkParam ft (numIn - 1) .stringSliceType with
        | .error e => .error (.wrap "checking last parameter is []string" e)
        | .ok _ =>
          match checkParamsLoop ft s.params 1 with
          | .error e => .error e
          | .ok _ =>
            match ft.outTys with
            | [] => .ok ()
            | [t] => if implementsError t then .ok () else .error .notError
            | _ => .error .tooManyReturns

/-! ### `Run` (`subcmd.go`, current revision) -/

/-- The static type a bound argument presents to the per-argument
assignability check in `Run` (`argval.Type()`). -/
def goValTy : GoVal → GoTy
  | .vBool _ => .bool
  | .vInt _ => .int
  | .vInt8 _ => .other 1
  | .vInt16 _ => .other 2
  | .vInt32 _ => .other 3
  | .vInt64 _ => .int64
  | .vUint _ => .uint
  | .vUint8 _ => .other 4
  | .vUint16 _ => .other 5
  | .vUint32 _ => .other 6
  | .vUint64 _ => .uint64
  | .vString _ => .string
  | .vFloat32 _ _ => .other 7
  | .vFloat64 _ _ => .float64
  | .vDuration _ => .duration
  | .vValue _ => .valueConcrete
  | .vNil => .other 8

def argValTy : ArgVal → GoTy
  | .ctx => .ctxConcrete
  | .val v => goValTy v
  | .strList _ => .strSlice

/-- The `for i, argval := range argvals` assignability loop of `Run`. -/
def argsAssignable : List ArgVal → List GoTy → Bool
  | [], [] => true
  | a :: as1, t :: ts => assignableTo (argValTy a) t && argsAssignable as1 ts
  | _, _ => false

/-- The errors `Run` can return (`nil` is `none` at the call site): the
usage errors of `errors.go`, a passed-through argument-binding error, the
inline signature-check failures, and a handler error wrapped with
"running <name>". -/
inductive RunErr where
  | missingSubcmd
  | helpRequested (queried : Option String)
  | unknownSubcmd (name : String)
  | bindErr (e : RErr)
  | sigErr (msg : String)
  | handlerErr (e : GoErr)

/-- Go map lookup on the `Subcmds()` map, modelled as an association list. -/
def lookup (cmds : List (String × Subcmd)) (name : String) : Option Subcmd :=
  (cmds.find? (fun c => c.1 = name)).map (fun c => c.2)

/-- `Run` from the current `subcmd.go`: empty args → `MissingSubcmdErr`;
unknown name `"help"` → `HelpRequestedErr` recording the next token as
the queried name when present; other unknown names → `UnknownSubcmdErr`;
otherwise bind arguments with `parseArgs`, re-check the handler shape,
call it, and return `errors.Wrapf(err, "running %s", name)` — which is
nil when the handler's error is nil or it declares no return. -/
def Run (heap : Heap) (cmds : List (String × Subcmd)) (args : List String) :
    Option RunErr :=
  match args with
  | [] => some .missingSubcmd
  | name :: args =>
    match lookup cmds name with
    | none =>
      if name = "help" then some (.helpRequested args.head?)
      else some (.unknownSubcmd name)
    | some subcmd =>
      match parseArgs heap subcmd.params args false with
      | .error e => some (.bindErr e)
      | .ok (_, argvals) =>
        match subcmd.F with
        | .notFunc => some (.sigErr s!"implementation for subcommand {name} is not a function")
        | .func ft =>
          if ft.inTys.length ≠ argvals.length then
            some (.sigErr s!"function for subcommand {name} takes {ft.inTys.length} args, want {argvals.length}")
          else if ¬ argsAssignable argvals ft.inTys then
            some (.sigErr "argument type mismatch")
          else if ft.outTys.length > 1 then
            some (.sigErr s!"function for subcommand {name} returns {ft.outTys.length} values, want 0 or 1")
          else if ft.outTys.length = 1 ∧ ¬ implementsError (ft.outTys.getD 0 (.other 0)) then
            some (.sigErr "return type is not error")
          else
            match (if ft.outTys.length = 1 then ft.impl argvals else none) with
            | none => none
            | some e => some (.handlerErr (.wrapped ("running " ++ name) e))

/-! ### Concrete example declarations used by the theorems -/

/-- The everywhere-empty object heap. -/
def emptyHeap : Heap := fun _ => []

/-- `"-flag"`, Bool, default `false`. -/
def flagParam : Param := { name := "-flag", type := .bool, dflt := .vBool false, doc := "" }

/-- `"required"`, Int, default `0` (a `Param` always carries a default). -/
def reqParam : Param := { name := "required", type := .int, dflt := .vInt 0, doc := "" }

/-- `"optional?"`, Int, default `7`. -/
def optParam : Param := { name := "optional?", type := .int, dflt := .vInt 7, doc := "" }

/-- The spec's example parameter list
`["-flag":Bool default=false, "required":Int32, "optional?":Int32 default=7]`. -/
def specParams : List Param := [flagParam, reqParam, optParam]

/-! ### Theorems -/

/-- **C3**: during positional binding, an exhausted token list at a
required positional (no `?` suffix) fails with the too-few-arguments
error; the binding loop stops at the first error, leaving later
positionals unprocessed; in particular the spec's example parameter list
with no tokens fails with too-few-arguments. -/
theorem c3_required_positional_missing :
    (∀ (heap : Heap) (p : Param), hasQmarkSuffix p.name = false →
        parsePositionalArg heap p [] = .error .tooFewArgs) ∧
    (∀ (heap : Heap) (p : Param) (ps : List Param) (args : List String)
        (acc : List ArgVal) (e : RErr),
        parsePositionalArg heap p args = .error e →
        bindPositionals heap (p :: ps) args acc = .error e) ∧
    (parseArgs emptyHeap specParams [] false).map (fun r => r.2) =
      .error .tooFewArgs := by
  refine ⟨?_, ?_, by decide⟩
  · intro heap p hq
    simp [parsePositionalArg, hq]
  · intro heap p ps args acc e h
    simp [bindPositionals, h]

/-- Witness for C3 at the concrete required positional `"required"`. -/
theorem c3_witness :
    hasQmarkSuffix reqParam.name = false ∧
    parsePositionalArg emptyHeap reqParam [] = .error .tooFewArgs ∧
    bindPositionals emptyHeap [reqParam, optParam] [] [] = .error .tooFewArgs :=
  ⟨by decide,
   c3_required_positional_missing.1 emptyHeap reqParam (by decide),
   c3_required_positional_missing.2.1 emptyHeap reqParam [optParam] [] [] .tooFewArgs
     (c3_required_positional_missing.1 emptyHeap reqParam (by decide))⟩

/-- **C6**: binding the spec's example parameter list against
`["-flag", "42"]` yields flag=true, required=42, optional=7 (default) and
an empty tail; against `["42", "99", "extra1", "extra2"]` it yields
flag=false (default), required=42, optional=99 and tail
`["extra1", "extra2"]`. -/
theorem c6_example_bindings :
    (parseArgs emptyHeap specParams ["-flag", "42"] false).map (fun r => r.2) =
      .ok [.ctx, .val (.vBool true), .val (.vInt 42), .val (.vInt 7), .strList []] ∧
    (parseArgs emptyHeap specParams ["42", "99", "extra1", "extra2"] false).map
        (fun r => r.2) =
      .ok [.ctx, .val (.vBool false), .val (.vInt 42), .val (.vInt 99),
        .strList ["extra1", "extra2"]] :=
  ⟨by decide, by decide⟩

/-- Helper: the full shape of a successful `ToFlagSet` run — the flag
schema lists exactly the dash-prefixed parameters (dash-trimmed names, in
declared order), the positionals are exactly the remaining parameters in
declared order, and the two classes exhaust the input. -/
theorem toFlagSet_ok_shape :
    ∀ (params : List Param) (fs : List FlagSpec) (pos : List Param),
      ToFlagSet params = .ok (fs, pos) →
      fs.map (fun f => (f.name, f.ty)) =
        (params.filter (fun p => hasDashPrefix p.name)).map
          (fun p => (trimDashes p.name, p.type)) ∧
      pos = params.filter (fun p => !hasDashPrefix p.name) ∧
      fs.length + pos.length = params.length := by
  intro params
  induction params with
  | nil =>
    intro fs pos h
    simp only [ToFlagSet, Except.ok.injEq, Prod.mk.injEq] at h
    simp [← h.1, ← h.2]
  | cons p rest ih =>
    intro fs pos h
    simp only [ToFlagSet] at h
    cases hd : hasDashPrefix p.name <;> rw [hd] at h <;> simp only [Bool.not_true,
      Bool.not_false, Bool.false_eq_true, Bool.true_eq_false, not_false_iff,
      not_true, if_true, if_false, ite_true, ite_false] at h
    · cases hr : ToFlagSet rest with
      | error e => rw [hr] at h; cases h
      | ok r =>
        rw [hr] at h
        obtain ⟨fs2, pos2⟩ := r
        simp only [Except.ok.injEq, Prod.mk.injEq] at h
        obtain ⟨h1, h2⟩ := h
        obtain ⟨ih1, ih2, ih3⟩ := ih fs2 pos2 hr
        subst h1 h2
        subst ih2
        simp [List.filter_cons, hd, ih1]
        omega
    · cases hfd : flagDefault p with
      | error e => rw [hfd] at h; cases h
      | ok v =>
        rw [hfd] at h
        cases hr : ToFlagSet rest with
        | error e => rw [hr] at h; cases h
        | ok r =>
          rw [hr] at h
          obtain ⟨fs2, pos2⟩ := r
          simp only [Except.ok.injEq, Prod.mk.injEq] at h
          obtain ⟨h1, h2⟩ := h
          obtain ⟨ih1, ih2, ih3⟩ := ih fs2 pos2 hr
          subst h1 h2
          subst ih2
          simp [List.filter_cons, hd, ih1]
          omega

/-- **C9**: whenever `ToFlagSet` succeeds, every declared parameter was
classified exactly once: the number of flag value holders plus the number
of positional parameters equals the number of input parameters. -/
theorem c9_every_param_classified_once :
    ∀ (params : List Param) (fs : List FlagSpec) (pos : List Param),
      ToFlagSet params = .ok (fs, pos) → fs.length + pos.length = params.length :=
  fun params fs pos h => (toFlagSet_ok_shape params fs pos h).2.2

/-- A positional parameter (`"x"`) declared before a flag-prefixed one
(`"-v"`): the order on which the claim's "maximal leading run" reading and
the code disagree. -/
def c1posParam : Param := { name := "x", type := .string, dflt := .vString "", doc := "" }

def c1flagParam : Param := { name := "-v", type := .bool, dflt := .vBool false, doc := "" }

/-- **C1 counterexample**: on `[x, -v]` the leading run of flag-parameters
is empty, so the claim predicts an empty flag schema with both parameters
positional (`.ok ([], [x, -v])`); `ToFlagSet` instead registers the later
`-v` as a flag and returns only `x` positional. -/
theorem c1_counterexample :
    ToFlagSet [c1posParam, c1flagParam] =
      .ok ([{ name := "v", ty := .bool, val := .vBool false }], [c1posParam]) ∧
    ToFlagSet [c1posParam, c1flagParam] ≠
      .ok ([], [c1posParam, c1flagParam]) :=
  ⟨by decide, by decide⟩

/-- **C1 (amended)**: each parameter is classified individually by its own
name — every dash-prefixed parameter, wherever it appears in the list,
contributes to the flag schema (under its dash-trimmed name, in declared
order), and every non-prefixed parameter is positional, in declared
order; the flag schema is not restricted to a maximal leading run. -/
theorem c1_pointwise_partition :
    ∀ (params : List Param) (fs : List FlagSpec) (pos : List Param),
      ToFlagSet params = .ok (fs, pos) →
      fs.map (fun f => (f.name, f.ty)) =
        (params.filter (fun p => hasDashPrefix p.name)).map
          (fun p => (trimDashes p.name, p.type)) ∧
      pos = params.filter (fun p => !hasDashPrefix p.name) :=
  fun params fs pos h =>
    ⟨(toFlagSet_ok_shape params fs pos h).1, (toFlagSet_ok_shape params fs pos h).2.1⟩

/-- Witness for C1's amended theorem at `[x, -v]`. -/
theorem c1_witness :
    ([{ name := "v", ty := .bool, val := .vBool false }] : List FlagSpec).map
        (fun f => (f.name, f.ty)) =
      ([c1posParam, c1flagParam].filter (fun p => hasDashPrefix p.name)).map
        (fun p => (trimDashes p.name, p.type)) ∧
    [c1posParam] = [c1posParam, c1flagParam].filter (fun p => !hasDashPrefix p.name) :=
  c1_pointwise_partition [c1posParam, c1flagParam]
    [{ name := "v", ty := .bool, val := .vBool false }] [c1posParam] (by decide)

/-- The `Value`-kind optional positional of the C2 scenario: its declared
default is the object at heap reference 0 (the shared-default situation of
`TestDifferentValues` in `value_test.go`). -/
def c2valueParam : Param := { name := "v?", type := .value, dflt := .vValue 0, doc := "" }

/-- The initial heap: the declared default object holds `["dflt"]`. -/
def c2heap0 : Heap := fun _ => ["dflt"]

/-- The heap after the first binding of the declaration against `["A"]`. -/
def c2heap1 : Heap :=
  match parseArgs c2heap0 [c2valueParam] ["A"] false with
  | .ok (h, _) => h
  | .error _ => c2heap0

/-- **C2 (bug demonstration)**: binding a `Value` parameter calls `Set`
directly on the declared default object — no clone is made — so the first
invocation overwrites the default's state from `["dflt"]` to `["A"]`, and
a second invocation using the same declaration (here with no token, so it
receives the default object as-is) observes `["A"]`, not the declared
`["dflt"]`.  This contradicts the clone-before-use property the spec
states and that `TestDifferentValues` in `value_test.go` requires. -/
theorem c2_default_mutated_across_invocations :
    (parseArgs c2heap0 [c2valueParam] ["A"] false).map (fun r => r.2) =
      .ok [.ctx, .val (.vValue 0), .strList []] ∧
    heapGet c2heap0 0 = ["dflt"] ∧
    heapGet c2heap1 0 = ["A"] ∧
    (parseArgs c2heap1 [c2valueParam] [] false).map
        (fun r => (heapGet r.1 0, r.2)) =
      .ok (["A"], [.ctx, .val (.vValue 0), .strList []]) ∧
    (["A"] : List String) ≠ ["dflt"] :=
  ⟨by decide, by decide, by decide, by decide, by decide⟩

/-- Helper: a successful `strconv.ParseInt` returns exactly the token's
decimal value, which lies in the signed `bitSize`-bit range. -/
theorem strconvParseInt_ok (s : String) (b : Nat) (v : Int)
    (h : strconvParseInt s b = .ok v) :
    tokenIntVal s = some v ∧ -(2 ^ (b - 1) : Int) ≤ v ∧ v < 2 ^ (b - 1) := by
  cases ht : tokenIntVal s with
  | none => simp [strconvParseInt, ht] at h
  | some u =>
    simp only [strconvParseInt, ht] at h
    split at h
    · rename_i hc
      simp only [Except.ok.injEq] at h
      subst h
      exact ⟨rfl, hc.1, hc.2⟩
    · cases h

/-- Helper: a successful `strconv.ParseUint` returns exactly the token's
decimal value, which lies below `2^bitSize`. -/
theorem strconvParseUint_ok (s : String) (b : Nat) (v : Nat)
    (h : strconvParseUint s b = .ok v) :
    tokenUintVal s = some v ∧ v < 2 ^ b := by
  cases ht : tokenUintVal s with
  | none => simp [strconvParseUint, ht] at h
  | some u =>
    simp only [strconvParseUint, ht] at h
    split at h
    · rename_i hc
      simp only [Except.ok.injEq] at h
      subst h
      exact ⟨rfl, hc⟩
    · cases h

/-- **C4**: a token bound to the 32-bit Int kind parses with a 32-bit range
check — a token whose signed decimal value lies outside
`[-2^31, 2^31)` is a parse failure, and a successful parse returns exactly
the token's decimal value, which therefore lies in range (never a
truncated value); likewise for the Uint kind and `[0, 2^32)`. -/
theorem c4_int32_range_checked :
    (∀ (s : String) (n : Int), tokenIntVal s = some n →
        (n < -(2 ^ 31) ∨ 2 ^ 31 ≤ n) →
        ∀ (p : Param) (rest : List String),
          ∃ m, parseIntPos (s :: rest) p = .error (.parseErr m)) ∧
    (∀ (p : Param) (s : String) (rest args2 : List String) (v : GoVal),
        parseIntPos (s :: rest) p = .ok (v, args2) →
        ∃ n, v = .vInt n ∧ tokenIntVal s = some n ∧ -(2 ^ 31) ≤ n ∧ n < 2 ^ 31) ∧
    (∀ (s : String) (n : Nat), tokenUintVal s = some n → 2 ^ 32 ≤ n →
        ∀ (p : Param) (rest : List String),
          ∃ m, parseUintPos (s :: rest) p = .error (.parseErr m)) ∧
    (∀ (p : Param) (s : String) (rest args2 : List String) (v : GoVal),
        parseUintPos (s :: rest) p = .ok (v, args2) →
        ∃ n, v = .vUint n ∧ tokenUintVal s = some n ∧ n < 2 ^ 32) := by
  refine ⟨?_, ?_, ?_, ?_⟩
  · intro s n htok hout p rest
    cases ha : asInt p.dflt with
    | error e => exact ⟨e, by simp [parseIntPos, ha]⟩
    | ok d =>
      refine ⟨s!"value out of range: {s}", ?_⟩
      norm_num at hout
      have hrange : ¬ ((-2147483648 : Int) ≤ n ∧ n < 2147483648) := by omega
      simp [parseIntPos, ha, strconvParseInt, htok, hrange]
  · intro p s rest args2 v h
    cases ha : asInt p.dflt with
    | error e => simp [parseIntPos, ha] at h
    | ok d =>
      simp only [parseIntPos, ha] at h
      cases hp : strconvParseInt s 32 with
      | error e => rw [hp] at h; cases h
      | ok w =>
        rw [hp] at h
        simp only [Except.ok.injEq, Prod.mk.injEq] at h
        obtain ⟨hst, hbounds⟩ := strconvParseInt_ok s 32 w hp
        refine ⟨w, h.1.symm, hst, ?_, ?_⟩ <;> norm_num at hbounds ⊢ <;> omega
  · intro s n htok hout p rest
    cases ha : asUint p.dflt with
    | error e => exact ⟨e, by simp [parseUintPos, ha]⟩
    | ok d =>
      refine ⟨s!"value out of range: {s}", ?_⟩
      norm_num at hout
      have hrange : ¬ (n < 4294967296) := by omega
      simp [parseUintPos, ha, strconvParseUint, htok, hrange]
  · intro p s rest args2 v h
    cases ha : asUint p.dflt with
    | error e => simp [parseUintPos, ha] at h
    | ok d =>
      simp only [parseUintPos, ha] at h
      cases hp : strconvParseUint s 32 with
      | error e => rw [hp] at h; cases h
      | ok w =>
        rw [hp] at h
        simp only [Except.ok.injEq, Prod.mk.injEq] at h
        obtain ⟨hst, hbound⟩ := strconvParseUint_ok s 32 w hp
        refine ⟨w, h.1.symm, hst, ?_⟩
        norm_num at hbound ⊢
        omega

/-- Witness for C4: `"2147483648"` (= 2^31) fails for Int32 while
`"2147483647"` succeeds; `"4294967296"` (= 2^32) fails for Uint32. -/
theorem c4_witness :
    (∃ m, parseIntPos ["2147483648"] reqParam = .error (.parseErr m)) ∧
    (∃ n, GoVal.vInt 2147483647 = .vInt n ∧ tokenIntVal "2147483647" = some n ∧
      -(2 ^ 31) ≤ n ∧ n < 2 ^ 31) ∧
    (∃ m, parseUintPos ["4294967296"] reqParam = .error (.parseErr m)) :=
  ⟨c4_int32_range_checked.1 "2147483648" 2147483648 (by decide)
      (Or.inr (by norm_num)) reqParam [],
   c4_int32_range_checked.2.1 reqParam "2147483647" [] [] (.vInt 2147483647)
      (by decide),
   c4_int32_range_checked.2.2.1 "4294967296" 4294967296 (by decide)
      (by norm_num) reqParam []⟩

/-- **C5 counterexample**: `int64(5)` is a non-negative signed integer, yet
`asUint` fails on it (its switch has no `int64` case), so "coercion
succeeds exactly when the value is non-negative" is false for `asUint`;
`asUint64` accepts the same value. -/
theorem c5_counterexample :
    (0 : Int) ≤ 5 ∧
    (asUint (.vInt64 5)).isOk = false ∧
    asUint64 (.vInt64 5) = .ok 5 :=
  ⟨by decide, by decide, by decide⟩

/-- **C5 (amended)**: for the signed dynamic types each unsigned helper's
switch accepts (int, int8, int16, int32 for `asUint`; those plus int64 for
`asUint64`), coercion succeeds exactly when the value is non-negative and
produces the same numeric value; a signed `int64` given to `asUint` always
fails, whatever its sign; a failure is an explicit error outcome. -/
theorem c5_unsigned_coercion :
    ∀ v : Int,
      (0 ≤ v →
        asUint (.vInt v) = .ok v.toNat ∧ asUint (.vInt8 v) = .ok v.toNat ∧
        asUint (.vInt16 v) = .ok v.toNat ∧ asUint (.vInt32 v) = .ok v.toNat ∧
        asUint64 (.vInt v) = .ok v.toNat ∧ asUint64 (.vInt8 v) = .ok v.toNat ∧
        asUint64 (.vInt16 v) = .ok v.toNat ∧ asUint64 (.vInt32 v) = .ok v.toNat ∧
        asUint64 (.vInt64 v) = .ok v.toNat) ∧
      (v < 0 →
        (asUint (.vInt v)).isOk = false ∧ (asUint (.vInt8 v)).isOk = false ∧
        (asUint (.vInt16 v)).isOk = false ∧ (asUint (.vInt32 v)).isOk = false ∧
        (asUint64 (.vInt v)).isOk = false ∧ (asUint64 (.vInt8 v)).isOk = false ∧
        (asUint64 (.vInt16 v)).isOk = false ∧ (asUint64 (.vInt32 v)).isOk = false ∧
        (asUint64 (.vInt64 v)).isOk = false) ∧
      (asUint (.vInt64 v)).isOk = false := by
  intro v
  refine ⟨fun hv => ?_, fun hv => ?_, by simp [asUint, Except.isOk, Except.toBool]⟩
  · simp [asUint, asUint64, ge_iff_le, hv]
  · simp [asUint, asUint64, Except.isOk, Except.toBool, ge_iff_le, not_le.mpr hv]

/-- Witness for C5's amended theorem at `v = 3` and `v = -2`. -/
theorem c5_witness :
    asUint (.vInt 3) = .ok 3 ∧
    (asUint (.vInt (-2))).isOk = false ∧
    (asUint (.vInt64 3)).isOk = false :=
  ⟨((c5_unsigned_coercion 3).1 (by norm_num)).1,
   ((c5_unsigned_coercion (-2)).2.1 (by norm_num)).1,
   (c5_unsigned_coercion 3).2.2⟩

/-- Witness for C9 at the spec's example parameter list: one flag holder
and two positionals for three parameters. -/
theorem c9_witness :
    ToFlagSet specParams =
      .ok ([{ name := "flag", ty := .bool, val := .vBool false }], [reqParam, optParam]) ∧
    (1 : Nat) + 2 = specParams.length :=
  ⟨by decide,
   c9_every_param_classified_once specParams
     [{ name := "flag", ty := .bool, val := .vBool false }] [reqParam, optParam] (by decide)⟩

/-- **C7**: `Check` accepts a handler only when its middle parameter count
(the total minus the leading context and the trailing `[]string`
collector) equals the declared parameter count N, and rejects a handler
with N+1 or N-1 middle parameters with the parameter-count error that
carries the actual and the expected counts. -/
theorem c7_check_arity :
    ∀ (s : Subcmd) (ft : GoFunc), s.F = .func ft →
      ((Check s).isOk = true → ft.inTys.length = s.params.length + 2) ∧
      (ft.inTys.length = s.params.length + 1 ∨ ft.inTys.length = s.params.length + 3 →
        Check s = .error (.numParams ft.inTys.length (s.params.length + 2))) := by
  intro s ft hF
  constructor
  · intro hok
    by_contra hne
    simp [Check, hF, hne, Except.isOk, Except.toBool] at hok
  · intro hn
    have hne : ft.inTys.length ≠ s.params.length + 2 := by omega
    simp [Check, hF, hne]

/-- A well-shaped declaration: one Bool parameter, handler
`func(context.Context, bool, []string)`. -/
def c7good : Subcmd :=
  { F := .func { inTys := [.ctxIface, .bool, .strSlice], outTys := [], impl := fun _ => none },
    params := [flagParam], desc := "" }

/-- Same declaration but the handler has one middle parameter too many. -/
def c7plus : Subcmd :=
  { F := .func { inTys := [.ctxIface, .bool, .bool, .strSlice], outTys := [], impl := fun _ => none },
    params := [flagParam], desc := "" }

/-- Same declaration but the handler has one middle parameter too few. -/
def c7minus : Subcmd :=
  { F := .func { inTys := [.ctxIface, .strSlice], outTys := [], impl := fun _ => none },
    params := [flagParam], desc := "" }

/-- Witness for C7: the accepted shape has exactly N+2 parameters; the
N+1 and N-1 middle-parameter shapes are rejected with the count error. -/
theorem c7_witness :
    ([GoTy.ctxIface, GoTy.bool, GoTy.strSlice]).length = [flagParam].length + 2 ∧
    Check c7plus = .error (.numParams 4 3) ∧
    Check c7minus = .error (.numParams 2 3) :=
  ⟨(c7_check_arity c7good _ rfl).1 (by decide),
   (c7_check_arity c7plus _ rfl).2 (Or.inr (by decide)),
   (c7_check_arity c7minus _ rfl).2 (Or.inl (by decide))⟩

/-- **C8**: when argument binding succeeds and the handler is called, a
handler that declares an error return and returns a non-nil error makes
`Run` return exactly that error value wrapped in one layer of
"running <name>" context, and a handler that declares no return or
returns nil makes `Run` return nil. -/
theorem c8_handler_error_wrapped :
    ∀ (heap : Heap) (cmds : List (String × Subcmd)) (name : String)
      (args : List String) (sub : Subcmd) (ft : GoFunc) (h2 : Heap)
      (argvals : List ArgVal),
      lookup cmds name = some sub →
      sub.F = .func ft →
      parseArgs heap sub.params args false = .ok (h2, argvals) →
      ft.inTys.length = argvals.length →
      argsAssignable argvals ft.inTys = true →
      ft.outTys.length ≤ 1 →
      (ft.outTys.length = 1 → implementsError (ft.outTys.getD 0 (.other 0)) = true) →
      (∀ e, ft.outTys.length = 1 → ft.impl argvals = some e →
        Run heap cmds (name :: args) =
          some (.handlerErr (.wrapped ("running " ++ name) e))) ∧
      ((ft.outTys = [] ∨ ft.impl argvals = none) →
        Run heap cmds (name :: args) = none) := by
  intro heap cmds name args sub ft h2 argvals hlk hF hargs hlen hasn hout1 houterr
  have hne1 : ¬ (ft.inTys.length ≠ argvals.length) := by omega
  have hne3 : ¬ (ft.outTys.length > 1) := by omega
  have hne4 : ¬ (ft.outTys.length = 1 ∧
      ¬ implementsError (ft.outTys.getD 0 (.other 0)) = true) := by
    rintro ⟨hl, hni⟩
    exact hni (houterr hl)
  have hred : Run heap cmds (name :: args) =
      (match (if ft.outTys.length = 1 then ft.impl argvals else none) with
       | none => none
       | some e => some (.handlerErr (.wrapped ("running " ++ name) e))) := by
    simp only [Run, hlk, hargs, hF]
    rw [if_neg hne1, if_neg (by simpa using hasn), if_neg hne3, if_neg hne4]
  constructor
  · intro e hl1 himp
    rw [hred, if_pos hl1, himp]
  · intro hnil
    rcases hnil with hempty | hnone
    · rw [hred, if_neg (by simp [hempty])]
    · rw [hred]
      cases hq : (if ft.outTys.length = 1 then ft.impl argvals else none) with
      | none => rfl
      | some e =>
        exfalso
        by_cases hl : ft.outTys.length = 1
        · rw [if_pos hl, hnone] at hq; cases hq
        · rw [if_neg hl] at hq; cases hq

/-- A concrete subcommand whose handler returns the error `base "boom"`. -/
def c8cmds : List (String × Subcmd) :=
  [("x", { F := .func { inTys := [.ctxIface, .strSlice], outTys := [.errorIface],
                        impl := fun _ => some (.base "boom") },
           params := [], desc := "" })]

/-- A concrete subcommand whose handler declares no return value. -/
def c8cmdsNil : List (String × Subcmd) :=
  [("y", { F := .func { inTys := [.ctxIface, .strSlice], outTys := [],
                        impl := fun _ => none },
           params := [], desc := "" })]

/-- Witness for C8: the non-nil handler error comes back wrapped in exactly
one "running x" layer; a handler with no return yields nil. -/
theorem c8_witness :
    Run emptyHeap c8cmds ["x"] =
      some (.handlerErr (.wrapped ("running " ++ "x") (.base "boom"))) ∧
    Run emptyHeap c8cmdsNil ["y"] = none :=
  ⟨(c8_handler_error_wrapped emptyHeap c8cmds "x" [] _ _ emptyHeap
      [.ctx, .strList []] rfl rfl rfl rfl rfl (by decide) (fun _ => rfl)).1
      (.base "boom") rfl rfl,
   (c8_handler_error_wrapped emptyHeap c8cmdsNil "y" [] _ _ emptyHeap
      [.ctx, .strList []] rfl rfl rfl rfl rfl (by decide) (by intro h; cases h)).2
      (Or.inl rfl)⟩

/-- **C10**: when the subcommand map has no `"help"` entry, running with
`args[0] = "help"` yields the help-requested error recording `args[1]` as
the queried name when present, never the unknown-subcommand error; the
unknown-subcommand error arises only for unknown names other than
`"help"`, and it names that subcommand. -/
theorem c10_help_reserved :
    ∀ (heap : Heap) (cmds : List (String × Subcmd)) (rest : List String),
      lookup cmds "help" = none →
      (Run heap cmds ("help" :: rest) = some (.helpRequested rest.head?)) ∧
      (∀ (name m : String),
        Run heap cmds (name :: rest) = some (.unknownSubcmd m) →
        name ≠ "help" ∧ m = name) := by
  intro heap cmds rest hlk
  constructor
  · simp [Run, hlk]
  · intro name m h
    by_cases hn : name = "help"
    · subst hn
      simp [Run, hlk] at h
    · cases hl2 : lookup cmds name with
      | none =>
        rw [Run, hl2] at h
        rw [if_neg hn] at h
        simp only [Option.some.injEq, RunErr.unknownSubcmd.injEq] at h
        exact ⟨hn, h.symm⟩
      | some sub =>
        exfalso
        simp only [Run, hl2] at h
        repeat' split at h
        all_goals cases h

/-- Witness for C10: with an empty subcommand map, `help sub` produces the
help-requested error naming `sub`; `zzz` produces the unknown-subcommand
error, and the theorem certifies that name is not `"help"`. -/
theorem c10_witness :
    Run emptyHeap [] ["help", "sub"] = some (.helpRequested (some "sub")) ∧
    ("zzz" ≠ "help" ∧ "zzz" = "zzz") :=
  ⟨(c10_help_reserved emptyHeap [] ["sub"] rfl).1,
   (c10_help_reserved emptyHeap [] [] rfl).2 "zzz" "zzz" (by rfl)⟩

end Subcmd
